import Mathlib

/-!
Shallow embedding of the `ai-health-integrations-v1-teaser` repository
(TypeScript) in Lean 4, for checking its natural-language specification.

Embedded components, each translated from its source file:
  * `src/events/queue.ts`              — deduplicating FIFO queue
  * `src/scripts/hl7-ingest.ts`        — HL7 parser / normalizer (script variant)
  * the ESM ingest variant (`parseHL7Message` in the unnamed ESM source file)
  * `src/scripts/agent-orchestrator.ts`— policy gate and event processing
  * `src/observability/metrics.ts`     — counters (`inc` / `snapshot`)
  * `src/evals/eval.ts`                — eval harness (`evaluateRule`, main loop)

JavaScript-specific semantics (falsy defaults via `||`, `undefined` on
out-of-range index, `String.prototype.includes`, regex matching) are modelled
by small helper functions defined below, each annotated with the JS idiom it
embeds. Non-deterministic reads (`Date.now()`, `Math.random()`,
`new Date().toISOString()`) become explicit parameters, so that the embedded
functions are pure functions of the raw input *and* of those reads.
-/

/-! ## JavaScript string/array helpers -/

/-- JS `haystack.includes(needle)`: substring containment.
On the ASCII strings appearing in this repository this coincides with
infix containment of the character lists. -/
def jsIncludes (haystack needle : String) : Bool :=
  decide (needle.toList <:+: haystack.toList)

/-- JS `xs[i] || d` for an array of strings: yields the default both when the
index is out of range (`undefined`, falsy) and when the entry is the empty
string (also falsy). -/
def jsIndexOr (xs : List String) (i : Nat) (d : String) : String :=
  match xs.get? i with
  | none => d
  | some s => if s = "" then d else s

/-- JS truthiness of `xs[i]` for an array of strings: false for a missing
index (`undefined`) and for the empty string. -/
def jsIndexTruthy (xs : List String) (i : Nat) : Bool :=
  match xs.get? i with
  | none => false
  | some s => !(s = "")

/-- Splits a character list at every occurrence of the separator character;
always returns a non-empty list of chunks (so JS `lines[0]` never throws). -/
def splitList (sep : Char) : List Char → List (List Char)
  | [] => [[]]
  | c :: rest =>
    match splitList sep rest with
    | [] => [[c]]
    | h :: t => if c = sep then [] :: h :: t else (c :: h) :: t

/-- JS `s.split(sep)` for a single-character literal separator (the only kind
this repository uses: `'|'`, `'\n'`, `'^'`). -/
def jsSplit (s : String) (sep : Char) : List String :=
  (splitList sep s.toList).map (fun cs => String.mk cs)

/-- JS `s.startsWith(p)`. -/
def jsStartsWith (s p : String) : Bool :=
  decide (p.toList <+: s.toList)

/-! ## Queue — `src/events/queue.ts`

```ts
export type QueueItem = { id: string; type: string; payload: unknown };
const seen = new Set<string>();
const q: QueueItem[] = [];
export const enqueue = (item: QueueItem) => {
  if (seen.has(item.id)) return false; // idempotency
  seen.add(item.id);
  q.push(item);
  return true;
};
export const dequeue = () => q.shift();
export const size = () => q.length;
```

The module-level mutable pair `(seen, q)` becomes an explicit `QueueState`
threaded through the operations; the `unknown` payload is a type parameter.
-/

structure QueueItem (α : Type) where
  id : String
  type : String
  payload : α
deriving DecidableEq, Repr

/-- The module-level state of `queue.ts`: the dedup set `seen` (a `Set<string>`,
modelled as the list of ids in insertion order, membership = `Set.has`) and the
array `q`. -/
structure QueueState (α : Type) where
  seen : List String
  q : List (QueueItem α)
deriving DecidableEq, Repr

/-- The state at process start: both `seen` and `q` empty. -/
def QueueState.init (α : Type) : QueueState α := ⟨[], []⟩

/-- `enqueue(item)`: returns `false` and leaves the state untouched when
`seen.has(item.id)`; otherwise `seen.add(item.id)`, `q.push(item)`, returns
`true`. -/
def enqueue {α : Type} (item : QueueItem α) (s : QueueState α) :
    Bool × QueueState α :=
  if item.id ∈ s.seen then (false, s)
  else (true, ⟨s.seen ++ [item.id], s.q ++ [item]⟩)

/-- `dequeue()` = `q.shift()`: removes and returns the front element, or
`undefined` (here `none`) when the queue is empty. -/
def dequeue {α : Type} (s : QueueState α) :
    Option (QueueItem α) × QueueState α :=
  match s.q with
  | [] => (none, s)
  | x :: rest => (some x, ⟨s.seen, rest⟩)

/-- `size()` = `q.length`. -/
def size {α : Type} (s : QueueState α) : Nat := s.q.length

/-- One client interaction with the queue module: an `enqueue(item)` call or a
`dequeue()` call. -/
inductive QueueOp (α : Type) where
  | enq (item : QueueItem α)
  | deq
deriving DecidableEq, Repr

/-- State reached after one operation (return values discarded). -/
def stepOp {α : Type} (s : QueueState α) : QueueOp α → QueueState α
  | .enq item => (enqueue item s).2
  | .deq => (dequeue s).2

/-- State reached after a sequence of operations. -/
def runOps {α : Type} (s : QueueState α) (ops : List (QueueOp α)) : QueueState α :=
  ops.foldl stepOp s

/-! ## Canonical event data model — `NormalizedEvent`

Shared by `hl7-ingest.ts`, its ESM variant, and `agent-orchestrator.ts`. -/

/-- The `type` union `'admission' | 'discharge' | 'transfer' | 'update'`. -/
inductive EventType where
  | admission
  | discharge
  | transfer
  | update
deriving DecidableEq, Repr

structure PatientName where
  family : String
  given : String
deriving DecidableEq, Repr

structure EventData where
  messageType : String
  patientMRN : String
  patientName : PatientName
  patientDOB : String
  patientGender : String
  location : String
  attendingPhysician : String
deriving DecidableEq, Repr

structure EventMetadata where
  originalHL7 : String
  processedAt : String
  source : String
deriving DecidableEq, Repr

structure NormalizedEvent where
  id : String
  type : EventType
  patientId : String
  facilityId : String
  timestamp : String
  data : EventData
  metadata : EventMetadata
deriving DecidableEq, Repr

/-! ## Normalizer — `parseHL7Message` in `src/scripts/hl7-ingest.ts`

```ts
function parseHL7Message(hl7: string): NormalizedEvent {
  const lines = hl7.split('\n');
  const mshSegment = lines[0].split('|');
  const pidSegment = lines.find(line => line.startsWith('PID'))?.split('|') || [];
  const pv1Segment = lines.find(line => line.startsWith('PV1'))?.split('|') || [];
  const messageType = mshSegment[8] || 'ADT^A01';
  const patientName = pidSegment[5] ? pidSegment[5].split('^') : ['', ''];
  ...
  id: `evt_${Date.now()}_${Math.random().toString(36).substr(2, 9)}`,
  type: messageType.includes('A01') ? 'admission' : 'update',
  ...
}
```

The non-deterministic reads become parameters: `nowMs` for `Date.now()`,
`rand` for `Math.random().toString(36).substr(2, 9)`, and `iso1`/`iso2` for
the two `new Date().toISOString()` calls (`timestamp` and
`metadata.processedAt`). Everything else is a pure function of `hl7`. -/

/-- The `type:` ternary of `hl7-ingest.ts` line 51:
`messageType.includes('A01') ? 'admission' : 'update'`. -/
def classifyIngest (messageType : String) : EventType :=
  if jsIncludes messageType "A01" then .admission else .update

def parseHL7Message (hl7 : String) (nowMs : Nat) (rand iso1 iso2 : String) :
    NormalizedEvent :=
  let lines := jsSplit hl7 '\n'
  let mshSegment := jsSplit (lines.headD "") '|'
  let pidSegment := ((lines.find? (fun line => jsStartsWith line "PID")).map
    (fun l => jsSplit l '|')).getD []
  let pv1Segment := ((lines.find? (fun line => jsStartsWith line "PV1")).map
    (fun l => jsSplit l '|')).getD []
  let messageType := jsIndexOr mshSegment 8 "ADT^A01"
  let patientName := if jsIndexTruthy pidSegment 5
    then jsSplit ((pidSegment.get? 5).getD "") '^' else ["", ""]
  { id := "evt_" ++ toString nowMs ++ "_" ++ rand
    type := classifyIngest messageType
    patientId := jsIndexOr pidSegment 3 "unknown"
    facilityId := jsIndexOr mshSegment 4 "FACILITY_001"
    timestamp := iso1
    data :=
      { messageType := messageType
        patientMRN := jsIndexOr pidSegment 3 ""
        patientName :=
          { family := jsIndexOr patientName 0 ""
            given := jsIndexOr patientName 1 "" }
        patientDOB := jsIndexOr pidSegment 7 ""
        patientGender := jsIndexOr pidSegment 8 ""
        location := jsIndexOr pv1Segment 3 ""
        attendingPhysician := jsIndexOr pv1Segment 7 "" }
    metadata :=
      { originalHL7 := hl7
        processedAt := iso2
        source := "hl7-ingest" } }

/-- The synthetic sample HL7v2 ADT message hard-coded at the top of
`src/scripts/hl7-ingest.ts` (`sampleHL7Message`). -/
def sampleHL7Message : String :=
  "MSH|^~\\&|SENDING_APP|SENDING_FACILITY|RECEIVING_APP|RECEIVING_FACILITY|20230813110800||ADT^A01|MSG123456|P|2.5\n" ++
  "EVN||202308131108\n" ++
  "PID|1||MRN123456^^^HOSPITAL^MR||DOE^JOHN^||19800101|M|||123 MAIN ST^^ANYTOWN^ST^12345||(555)123-4567||||||||||\n" ++
  "PV1|1|I|ICU^101^01||||12345^SMITH^JANE^M^^^DR|||||||||||||||||||||||202308131100"

/-! ## Normalizer — `parseHL7Message` in the ESM ingest variant

The second ingest variant in the repository (TypeScript, ESM: trims the input,
splits on `/\r?\n/`, looks the MSH segment up by header instead of taking
`lines[0]`, derives the id from the MSH-10 control id, and classifies with the
full `A01`/`A03`/`A02` chain). Non-deterministic reads again become
parameters: `nowMs` for the `Date.now()` in the control-id fallback, and
`iso1`/`iso2` for the two `new Date().toISOString()` calls. -/

/-- JS `s.trim()`: strips whitespace from both ends. -/
def jsTrim (s : String) : String :=
  String.mk
    (((s.toList.dropWhile Char.isWhitespace).reverse.dropWhile
      Char.isWhitespace).reverse)

/-- JS `s.split(/\r?\n/)`: every `"\r\n"` pair and every bare `'\n'` is a line
break (a bare `'\r'` is not). Modelled by folding `"\r\n"` to `"\n"` and then
splitting at `'\n'`. -/
def stripCR : List Char → List Char
  | [] => []
  | '\r' :: '\n' :: rest => '\n' :: stripCR rest
  | c :: rest => c :: stripCR rest

def jsSplitNewline (s : String) : List String :=
  (splitList '\n' (stripCR s.toList)).map (fun cs => String.mk cs)

/-- The `eventType` chain of the ESM variant:
`msgType.includes("A01") ? "admission" : msgType.includes("A03") ?
"discharge" : msgType.includes("A02") ? "transfer" : "update"`. -/
def classifyESM (msgType : String) : EventType :=
  if jsIncludes msgType "A01" then .admission
  else if jsIncludes msgType "A03" then .discharge
  else if jsIncludes msgType "A02" then .transfer
  else .update

def parseHL7MessageESM (hl7 : String) (nowMs : Nat) (iso1 iso2 : String) :
    NormalizedEvent :=
  let lines := jsSplitNewline (jsTrim hl7)
  let msh := jsSplit ((lines.find? (fun l => jsStartsWith l "MSH")).getD "") '|'
  let pid := jsSplit ((lines.find? (fun l => jsStartsWith l "PID")).getD "") '|'
  let pv1 := jsSplit ((lines.find? (fun l => jsStartsWith l "PV1")).getD "") '|'
  let msgType := jsIndexOr msh 8 "ADT^A01"
  let mrn := jsIndexOr pid 3 "MRN_UNKNOWN"
  let nameParts := jsSplit (jsIndexOr pid 5 "^") '^'
  let controlId := jsIndexOr msh 9 ("MSG" ++ toString nowMs)
  { id := "evt_" ++ controlId
    type := classifyESM msgType
    patientId := mrn
    facilityId := jsIndexOr msh 4 "FACILITY_001"
    timestamp := iso1
    data :=
      { messageType := msgType
        patientMRN := mrn
        patientName :=
          { family := jsIndexOr nameParts 0 ""
            given := jsIndexOr nameParts 1 "" }
        patientDOB := jsIndexOr pid 7 ""
        patientGender := jsIndexOr pid 8 ""
        location := jsIndexOr pv1 3 ""
        attendingPhysician := jsIndexOr pv1 7 "" }
    metadata :=
      { originalHL7 := hl7
        processedAt := iso2
        source := "hl7-ingest" } }


/-! ## Policy gate and event processing — `src/scripts/agent-orchestrator.ts`

```ts
function validateEventPolicy(event: NormalizedEvent): PolicyResult {
  const policies = [
    { name: "patient-mrn-required",
      check: () => !!event.data.patientMRN && event.data.patientMRN.length > 0,
      reason: "Patient MRN is required" },
    { name: "valid-message-type",
      check: () => !!event.data.messageType && event.data.messageType.includes("ADT"),
      reason: "Invalid message type - must be ADT" },
    { name: "facility-whitelist",
      check: () => ["FACILITY_001", "FACILITY_002"].includes(event.facilityId),
      reason: "Facility not in whitelist" },
  ] as const;
  for (const p of policies) {
    if (!p.check())
      return { allowed: false, reason: p.reason, metadata: { violatedPolicy: p.name } };
  }
  return { allowed: true, reason: "All policies passed",
           metadata: { policiesChecked: policies.length } };
}
```
-/

/-- The `metadata` record attached to a `PolicyResult`: either the name of the
violated policy (`{ violatedPolicy: p.name }`) or the number of policies
checked (`{ policiesChecked: policies.length }`). -/
inductive PolicyMetadata where
  | violatedPolicy (name : String)
  | policiesChecked (n : Nat)
deriving DecidableEq, Repr

structure PolicyResult where
  allowed : Bool
  reason : String
  metadata : PolicyMetadata
deriving DecidableEq, Repr

/-- A named policy over events: name, predicate, violation reason. -/
structure Policy where
  name : String
  check : NormalizedEvent → Bool
  reason : String

/-- The `policies` array of `validateEventPolicy`, in declaration order. -/
def policies : List Policy :=
  [ { name := "patient-mrn-required"
      check := fun event =>
        !(event.data.patientMRN = "") && decide (event.data.patientMRN.length > 0)
      reason := "Patient MRN is required" },
    { name := "valid-message-type"
      check := fun event =>
        !(event.data.messageType = "") && jsIncludes event.data.messageType "ADT"
      reason := "Invalid message type - must be ADT" },
    { name := "facility-whitelist"
      check := fun event =>
        event.facilityId = "FACILITY_001" || event.facilityId = "FACILITY_002"
      reason := "Facility not in whitelist" } ]

/-- The `for (const p of policies)` loop: first failing policy short-circuits
with a denial naming itself; an exhausted list yields the all-pass result
(the total count of policies is passed in for `policies.length`). -/
def evalPolicies (event : NormalizedEvent) (total : Nat) :
    List Policy → PolicyResult
  | [] =>
    { allowed := true
      reason := "All policies passed"
      metadata := .policiesChecked total }
  | p :: rest =>
    if !(p.check event) then
      { allowed := false
        reason := p.reason
        metadata := .violatedPolicy p.name }
    else evalPolicies event total rest

def validateEventPolicy (event : NormalizedEvent) : PolicyResult :=
  evalPolicies event policies.length policies

/-- The `ProcessingMetrics` accumulator of the orchestrator (the two `Date`
fields and the derived duration are wall-clock bookkeeping, out of scope). -/
structure ProcessingMetrics where
  eventsProcessed : Nat
  policyViolations : Nat
  successCount : Nat
  errorCount : Nat
deriving DecidableEq, Repr

def ProcessingMetrics.init : ProcessingMetrics := ⟨0, 0, 0, 0⟩

/-- `processEvent(event, metrics)` made state-passing: a denied policy bumps
`policyViolations` *and* `errorCount` and returns early; an allowed event runs
the simulated downstream work and bumps `successCount`; the `finally` block
always bumps `eventsProcessed` and the module-level counter `inc("processed")`
(the counters map is threaded alongside, see `Counters` below). -/
def processEvent (event : NormalizedEvent) (m : ProcessingMetrics) :
    ProcessingMetrics :=
  let policy := validateEventPolicy event
  let afterTry :=
    if !policy.allowed then
      { m with
        policyViolations := m.policyViolations + 1
        errorCount := m.errorCount + 1 }
    else
      { m with successCount := m.successCount + 1 }
  { afterTry with eventsProcessed := afterTry.eventsProcessed + 1 }

/-- The orchestrator's batch loop: `for (const ev of events) processEvent(ev,
metrics)`. -/
def runBatch (events : List NormalizedEvent) (m : ProcessingMetrics) :
    ProcessingMetrics :=
  events.foldl (fun acc ev => processEvent ev acc) m

/-! ## Metrics sink — `src/observability/metrics.ts`

```ts
export type Counters = Record<string, number>;
const counters: Counters = {};
export const inc = (key: string) => {
  counters[key] = (counters[key] || 0) + 1;
};
export const snapshot = (): Counters => ({ ...counters });
```

The `Record<string, number>` object is modelled as an association list in key
insertion order (JS objects preserve string-key insertion order); property
read `counters[key] || 0` is `getCount`; property write updates the existing
entry in place or appends a new key at the end. -/

abbrev Counters : Type := List (String × Nat)

def Counters.empty : Counters := []

/-- `counters[key] || 0`: the recorded count, `0` when the key is absent. -/
def getCount (c : Counters) (key : String) : Nat :=
  match c.find? (fun p => p.1 = key) with
  | none => 0
  | some p => p.2

/-- `inc(key)`: `counters[key] = (counters[key] || 0) + 1`. -/
def inc (key : String) (c : Counters) : Counters :=
  if c.any (fun p => p.1 = key) then
    c.map (fun p => if p.1 = key then (p.1, p.2 + 1) else p)
  else c ++ [(key, 1)]

/-- `snapshot()`: `{ ...counters }` — a fresh object with the same entries.
In this pure embedding a copy is the value itself; what the copy guarantees
(later `inc` calls cannot change an already-taken snapshot) is exactly what
value-passing gives. -/
def snapshot (c : Counters) : Counters := c

/-- A sequence of `inc` calls, applied in order. -/
def runIncs (keys : List String) (c : Counters) : Counters :=
  keys.foldl (fun acc k => inc k acc) c

/-! ## Eval harness — `src/evals/eval.ts`

```ts
type Task = { name: string; rule: string; expect: boolean };
function evaluateRule(rule: string, payload: string): boolean {
  const m = rule.match(/^contains:(.+)$/i);
  if (!m) return false;
  const needle = m[1];
  return payload.includes(needle);
}
let pass = 0, fail = 0;
for (const t of doc.tasks) {
  const actual = evaluateRule(t.rule, payload);
  const ok = actual === t.expect;
  ok ? pass++ : fail++;
}
const rollback = fail > 0;
```
-/

structure EvalTask where
  name : String
  rule : String
  expect : Bool
deriving DecidableEq, Repr

/-- The regex match `rule.match(/^contains:(.+)$/i)`: succeeds iff the rule
starts with the nine-character prefix `contains:` up to ASCII case (the `i` flag;
in a non-`u` regex, case canonicalisation maps ASCII pattern letters only to
ASCII, which Lean's ASCII `Char.toLower` mirrors) followed by a non-empty
suffix containing no line terminator (`.` matches neither `'\n'` nor `'\r'`,
and without the `m` flag `$` anchors at the very end of the string); the
captured group `m[1]` is that suffix, verbatim. -/
def matchContainsRule (rule : String) : Option String :=
  let pre := String.mk (rule.toList.take 9)
  let needle := String.mk (rule.toList.drop 9)
  if String.mk (pre.toList.map Char.toLower) = "contains:" ∧ needle ≠ "" ∧
      ¬needle.toList.contains '\n' ∧ ¬needle.toList.contains '\r' then
    some needle
  else none

def evaluateRule (rule payload : String) : Bool :=
  match matchContainsRule rule with
  | none => false
  | some needle => jsIncludes payload needle

/-- One iteration of the eval loop: compare the rule's result on the payload
with the expectation and bump `pass` or `fail`. -/
def evalStep (payload : String) (acc : Nat × Nat) (t : EvalTask) : Nat × Nat :=
  if evaluateRule t.rule payload = t.expect then (acc.1 + 1, acc.2)
  else (acc.1, acc.2 + 1)

/-- The whole harness: fold the loop over the task list starting from
`pass = 0, fail = 0`, then `rollback = fail > 0`. Returns
`(pass, fail, rollback)`. -/
def runEval (tasks : List EvalTask) (payload : String) : Nat × Nat × Bool :=
  let counts := tasks.foldl (evalStep payload) (0, 0)
  (counts.1, counts.2, decide (counts.2 > 0))

/-! ## Theorems -/

/-- After any `enqueue item` call — successful or rejected — `item.id` is in
the dedup set. -/
theorem enqueue_mem_seen {α : Type} (item : QueueItem α) (s : QueueState α) :
    item.id ∈ (enqueue item s).2.seen := by
  unfold enqueue
  by_cases h : item.id ∈ s.seen <;> simp [h]

/-- An id already seen is rejected with no mutation. -/
theorem enqueue_seen_rejected {α : Type} (item : QueueItem α) (s : QueueState α)
    (h : item.id ∈ s.seen) : enqueue item s = (false, s) := by
  simp [enqueue, h]

/-- No operation ever removes an id from the dedup set (in particular,
`dequeue` drains `q` but not `seen`). -/
theorem stepOp_seen_mono {α : Type} (s : QueueState α) (op : QueueOp α)
    (a : String) (h : a ∈ s.seen) : a ∈ (stepOp s op).seen := by
  cases op with
  | enq item =>
    unfold stepOp enqueue
    by_cases hm : item.id ∈ s.seen <;> simp [hm, h]
  | deq =>
    unfold stepOp dequeue
    cases s.q <;> simpa using h

/-- Membership in the dedup set survives any sequence of operations. -/
theorem runOps_seen_mono {α : Type} (ops : List (QueueOp α)) (s : QueueState α)
    (a : String) (h : a ∈ s.seen) : a ∈ (runOps s ops).seen := by
  induction ops generalizing s with
  | nil => exact h
  | cons op rest ih =>
    exact ih (stepOp s op) (stepOp_seen_mono s op a h)

/-- Claim C1: starting from the initial empty queue, once `enqueue` has
returned `true` for an item with a given id, every later `enqueue` of an item
with that same id — after arbitrary further enqueue/dequeue operations,
including ones that dequeue the original item — returns `false` and performs
no mutation: the resulting state (queue contents, size, dedup set) is exactly
the state before the call. -/
theorem enqueue_dedup_persists {α : Type} (pre post : List (QueueOp α))
    (item item' : QueueItem α) (hid : item'.id = item.id)
    (hok : (enqueue item (runOps (QueueState.init α) pre)).1 = true) :
    enqueue item'
        (runOps (enqueue item (runOps (QueueState.init α) pre)).2 post) =
      (false,
        runOps (enqueue item (runOps (QueueState.init α) pre)).2 post) := by
  apply enqueue_seen_rejected
  rw [hid]
  exact runOps_seen_mono post _ item.id
    (enqueue_mem_seen item (runOps (QueueState.init α) pre))

/-- Witness for C1 at concrete inputs: id `"a"` is first enqueued successfully,
then dequeued; re-enqueuing id `"a"` (with a different payload) is still
rejected with no mutation. -/
theorem enqueue_dedup_persists_witness :
    (⟨"a", "HL7v2", 0⟩ : QueueItem Nat).id = (⟨"a", "HL7v2", 1⟩ : QueueItem Nat).id ∧
    (enqueue (⟨"a", "HL7v2", 1⟩ : QueueItem Nat)
        (runOps (QueueState.init Nat) [])).1 = true ∧
    enqueue (⟨"a", "HL7v2", 0⟩ : QueueItem Nat)
        (runOps (enqueue (⟨"a", "HL7v2", 1⟩ : QueueItem Nat)
          (runOps (QueueState.init Nat) [])).2 [QueueOp.deq]) =
      (false,
        runOps (enqueue (⟨"a", "HL7v2", 1⟩ : QueueItem Nat)
          (runOps (QueueState.init Nat) [])).2 [QueueOp.deq]) :=
  ⟨rfl, by decide,
    enqueue_dedup_persists [] [QueueOp.deq] ⟨"a", "HL7v2", 1⟩ ⟨"a", "HL7v2", 0⟩
      rfl (by decide)⟩

/-- Claim C5: the queue is FIFO. `dequeue` returns the front (oldest) element
and drops it, or signals empty (`none`) on an empty queue; and concretely,
after enqueuing three items with pairwise distinct fresh ids `a`, `b`, `c` in
that order into the initial state, three successive dequeues yield exactly the
`a`-item, the `b`-item and the `c`-item, leaving an empty queue. -/
theorem dequeue_fifo {α : Type} (ia ib ic : QueueItem α)
    (hab : ia.id ≠ ib.id) (hac : ia.id ≠ ic.id) (hbc : ib.id ≠ ic.id) :
    (∀ s : QueueState α, dequeue s = (s.q.head?, ⟨s.seen, s.q.tail⟩)) ∧
    ((dequeue (enqueue ic (enqueue ib (enqueue ia
        (QueueState.init α)).2).2).2).1 = some ia ∧
     (dequeue (dequeue (enqueue ic (enqueue ib (enqueue ia
        (QueueState.init α)).2).2).2).2).1 = some ib ∧
     (dequeue (dequeue (dequeue (enqueue ic (enqueue ib (enqueue ia
        (QueueState.init α)).2).2).2).2).2).1 = some ic ∧
     (dequeue (dequeue (dequeue (enqueue ic (enqueue ib (enqueue ia
        (QueueState.init α)).2).2).2).2).2).2.q = []) := by
  constructor
  · intro s
    unfold dequeue
    cases s with
    | mk seen q => cases q <;> simp
  · simp [enqueue, dequeue, QueueState.init, Ne.symm hab, Ne.symm hac,
      Ne.symm hbc]

/-- Witness for C5 at concrete inputs: ids `"a"`, `"b"`, `"c"`. -/
theorem dequeue_fifo_witness :
    ("a" : String) ≠ "b" ∧ ("a" : String) ≠ "c" ∧ ("b" : String) ≠ "c" ∧
    ((dequeue (enqueue (⟨"c", "t", 2⟩ : QueueItem Nat) (enqueue ⟨"b", "t", 1⟩
        (enqueue ⟨"a", "t", 0⟩ (QueueState.init Nat)).2).2).2).1 =
      some ⟨"a", "t", 0⟩) :=
  ⟨by decide, by decide, by decide,
    ((dequeue_fifo (⟨"a", "t", 0⟩ : QueueItem Nat) ⟨"b", "t", 1⟩ ⟨"c", "t", 2⟩
      (by decide) (by decide) (by decide)).2).1⟩

set_option maxRecDepth 100000

/-- Claim C3 (the code evaluated at the failing input): the normalizer of
`hl7-ingest.ts` is *not* a pure function of the raw bytes. Its event id is
built from `Date.now()` and `Math.random()` alone, and its `timestamp` from
the wall clock, so two runs on the byte-for-byte identical sample message
yield different ids and different timestamp fields whenever the
non-deterministic reads differ — which re-running makes inevitable. The spec
itself flags this variant's random/time-based id as a correctness gap
(sections 3 and 9), so the code, not the claim, is at fault. -/
theorem parseHL7Message_id_not_deterministic :
    (∀ (hl7 : String) (nowMs : Nat) (rand iso1 iso2 : String),
      (parseHL7Message hl7 nowMs rand iso1 iso2).id =
        "evt_" ++ toString nowMs ++ "_" ++ rand ∧
      (parseHL7Message hl7 nowMs rand iso1 iso2).timestamp = iso1) ∧
    (parseHL7Message sampleHL7Message 1692000000001 "k2j4h6l8m" "t1" "t1").id ≠
      (parseHL7Message sampleHL7Message 1692000000002 "p3q5r7s9t" "t2" "t2").id ∧
    (parseHL7Message sampleHL7Message 1692000000001 "k2j4h6l8m" "t1" "t1").timestamp ≠
      (parseHL7Message sampleHL7Message 1692000000002 "p3q5r7s9t" "t2" "t2").timestamp := by
  refine ⟨fun hl7 nowMs rand iso1 iso2 => ⟨rfl, rfl⟩, ?_, ?_⟩ <;> decide

/-- Counterexample to claim C4 as stated: on an input where the MSH, PID and
PV1 segments are all absent (the empty raw message), the fields extracted from
the missing segments are *not* all the empty string — the parser substitutes
the non-empty defaults `'ADT^A01'` (messageType), `'unknown'` (patientId) and
`'FACILITY_001'` (facilityId). -/
theorem parseHL7Message_nonempty_default_counterexample :
    (parseHL7Message "" 0 "r" "t" "t").data.messageType = "ADT^A01" ∧
    (parseHL7Message "" 0 "r" "t" "t").patientId = "unknown" ∧
    (parseHL7Message "" 0 "r" "t" "t").facilityId = "FACILITY_001" ∧
    (parseHL7Message "" 0 "r" "t" "t").data.messageType ≠ "" ∧
    (parseHL7Message "" 0 "r" "t" "t").patientId ≠ "" := by
  refine ⟨?_, ?_, ?_, ?_, ?_⟩ <;> decide

/-- Claim C4 as amended: the normalizer is total — for every raw input,
including malformed ones, it returns a degraded event instead of failing. A
missing PID segment degrades the PID-derived fields to the empty string
(patientMRN, name parts, DOB, gender), except `patientId`, which defaults to
`'unknown'`; a missing PV1 segment degrades location and attending physician
to the empty string; a first line with too few `|`-fields makes `messageType`
and `facilityId` fall back to the non-empty defaults `'ADT^A01'` and
`'FACILITY_001'`. -/
theorem parseHL7Message_degrades (hl7 : String) (nowMs : Nat)
    (rand iso1 iso2 : String) :
    ((jsSplit hl7 '\n').find? (fun line => jsStartsWith line "PID") = none →
      (parseHL7Message hl7 nowMs rand iso1 iso2).data.patientMRN = "" ∧
      (parseHL7Message hl7 nowMs rand iso1 iso2).data.patientName.family = "" ∧
      (parseHL7Message hl7 nowMs rand iso1 iso2).data.patientName.given = "" ∧
      (parseHL7Message hl7 nowMs rand iso1 iso2).data.patientDOB = "" ∧
      (parseHL7Message hl7 nowMs rand iso1 iso2).data.patientGender = "" ∧
      (parseHL7Message hl7 nowMs rand iso1 iso2).patientId = "unknown") ∧
    ((jsSplit hl7 '\n').find? (fun line => jsStartsWith line "PV1") = none →
      (parseHL7Message hl7 nowMs rand iso1 iso2).data.location = "" ∧
      (parseHL7Message hl7 nowMs rand iso1 iso2).data.attendingPhysician = "") ∧
    ((jsSplit ((jsSplit hl7 '\n').headD "") '|').length ≤ 4 →
      (parseHL7Message hl7 nowMs rand iso1 iso2).data.messageType = "ADT^A01" ∧
      (parseHL7Message hl7 nowMs rand iso1 iso2).facilityId = "FACILITY_001") := by
  refine ⟨fun hPid => ?_, fun hPv1 => ?_, fun hMsh => ?_⟩
  · simp [parseHL7Message, hPid, jsIndexOr, jsIndexTruthy]
  · simp [parseHL7Message, hPv1, jsIndexOr]
  · have h8 : (jsSplit ((jsSplit hl7 '\n').headD "") '|').get? 8 = none :=
      List.get?_eq_none.mpr (le_trans hMsh (by omega))
    have h4 : (jsSplit ((jsSplit hl7 '\n').headD "") '|').get? 4 = none :=
      List.get?_eq_none.mpr hMsh
    simp only [parseHL7Message, jsIndexOr]
    rw [h8, h4]
    exact ⟨rfl, rfl⟩

/-- Witness for C4 (amended) at a concrete malformed input: a message
consisting of one short MSH line only (no PID, no PV1, fewer than 5 fields). -/
theorem parseHL7Message_degrades_witness :
    (parseHL7Message "MSH|x" 0 "r" "t" "t").data.patientMRN = "" ∧
    (parseHL7Message "MSH|x" 0 "r" "t" "t").patientId = "unknown" ∧
    (parseHL7Message "MSH|x" 0 "r" "t" "t").data.location = "" ∧
    (parseHL7Message "MSH|x" 0 "r" "t" "t").data.messageType = "ADT^A01" ∧
    (parseHL7Message "MSH|x" 0 "r" "t" "t").facilityId = "FACILITY_001" := by
  have h := parseHL7Message_degrades "MSH|x" 0 "r" "t" "t"
  exact ⟨(h.1 (by decide)).1, (h.1 (by decide)).2.2.2.2.2,
    (h.2.1 (by decide)).1, (h.2.2 (by decide)).1, (h.2.2 (by decide)).2⟩

/-- Counterexample to claim C6 as stated: the variant cited in the claim
(`hl7-ingest.ts` line 51) does not implement the `A03 → discharge` and
`A02 → transfer` arms. On a message whose MSH-9 code is `ADT^A03` it
classifies the event as `update`, not `discharge`. -/
theorem classifyIngest_a03_counterexample :
    (parseHL7Message
        "MSH|^~\\&|APP|FAC|RAPP|RFAC|20230813||ADT^A03|MSG1|P|2.5\nPID|1||MRN1||DOE^JOHN||19800101|M"
        0 "r" "t" "t").data.messageType = "ADT^A03" ∧
    (parseHL7Message
        "MSH|^~\\&|APP|FAC|RAPP|RFAC|20230813||ADT^A03|MSG1|P|2.5\nPID|1||MRN1||DOE^JOHN||19800101|M"
        0 "r" "t" "t").type = EventType.update ∧
    EventType.update ≠ EventType.discharge := by
  refine ⟨?_, ?_, ?_⟩ <;> decide

/-- Claim C6 as amended: both ingest variants derive the event type from the
extracted message-type code by ordered substring matching with first match
wins and `update` for unmatched codes — but only the ESM variant implements
the full chain `A01 → admission`, `A03 → discharge`, `A02 → transfer`; the
`hl7-ingest.ts` script variant cited by the claim implements only
`A01 → admission` and classifies every other code, `A03` and `A02` included,
as `update`. -/
theorem classify_first_match_wins (code hl7 : String) (nowMs : Nat)
    (rand iso1 iso2 : String) :
    (parseHL7Message hl7 nowMs rand iso1 iso2).type =
      classifyIngest (parseHL7Message hl7 nowMs rand iso1 iso2).data.messageType ∧
    (parseHL7MessageESM hl7 nowMs iso1 iso2).type =
      classifyESM (parseHL7MessageESM hl7 nowMs iso1 iso2).data.messageType ∧
    (jsIncludes code "A01" = true →
      classifyESM code = .admission ∧ classifyIngest code = .admission) ∧
    (jsIncludes code "A01" = false → jsIncludes code "A03" = true →
      classifyESM code = .discharge ∧ classifyIngest code = .update) ∧
    (jsIncludes code "A01" = false → jsIncludes code "A03" = false →
      jsIncludes code "A02" = true →
      classifyESM code = .transfer ∧ classifyIngest code = .update) ∧
    (jsIncludes code "A01" = false → jsIncludes code "A03" = false →
      jsIncludes code "A02" = false →
      classifyESM code = .update ∧ classifyIngest code = .update) := by
  refine ⟨rfl, rfl, fun h1 => ?_, fun h1 h3 => ?_, fun h1 h3 h2 => ?_,
    fun h1 h3 h2 => ?_⟩ <;>
    simp [classifyESM, classifyIngest, h1] <;> simp [h3] <;> simp [h2]

/-- Witness for C6 (amended) at concrete codes: `ADT^A01` is admission in both
variants; `ADT^A03` is discharge in the ESM variant but update in the
`hl7-ingest.ts` variant. -/
theorem classify_first_match_wins_witness :
    (classifyESM "ADT^A01" = .admission ∧ classifyIngest "ADT^A01" = .admission) ∧
    (classifyESM "ADT^A03" = .discharge ∧ classifyIngest "ADT^A03" = .update) :=
  ⟨(classify_first_match_wins "ADT^A01" "" 0 "r" "t" "t").2.2.1 (by decide),
    (classify_first_match_wins "ADT^A03" "" 0 "r" "t" "t").2.2.2.1 (by decide)
      (by decide)⟩

/-- A non-empty string has positive length (JS `s.length > 0`). -/
theorem string_length_pos {s : String} (h : s ≠ "") : 0 < s.length := by
  cases s with
  | mk l =>
    cases l with
    | nil => exact absurd rfl h
    | cons c cs => simp [String.length]

/-- Claim C2: the policy gate evaluates its named predicates in declaration
order — `patient-mrn-required`, `valid-message-type`, `facility-whitelist` —
and the first predicate that fails short-circuits evaluation: the result has
`allowed = false` with that predicate's reason and its name in the metadata,
never a later predicate's, regardless of whether the later predicates would
also fail (the earlier cases place no condition on the later checks); when
all three pass, the result has `allowed = true` and metadata reporting the
count of policies checked. -/
theorem validateEventPolicy_order (event : NormalizedEvent) :
    (event.data.patientMRN = "" →
      validateEventPolicy event =
        ⟨false, "Patient MRN is required", .violatedPolicy "patient-mrn-required"⟩) ∧
    (event.data.patientMRN ≠ "" →
      (event.data.messageType = "" ∨ jsIncludes event.data.messageType "ADT" = false) →
      validateEventPolicy event =
        ⟨false, "Invalid message type - must be ADT", .violatedPolicy "valid-message-type"⟩) ∧
    (event.data.patientMRN ≠ "" →
      event.data.messageType ≠ "" → jsIncludes event.data.messageType "ADT" = true →
      event.facilityId ≠ "FACILITY_001" → event.facilityId ≠ "FACILITY_002" →
      validateEventPolicy event =
        ⟨false, "Facility not in whitelist", .violatedPolicy "facility-whitelist"⟩) ∧
    (event.data.patientMRN ≠ "" →
      event.data.messageType ≠ "" → jsIncludes event.data.messageType "ADT" = true →
      (event.facilityId = "FACILITY_001" ∨ event.facilityId = "FACILITY_002") →
      validateEventPolicy event =
        ⟨true, "All policies passed", .policiesChecked 3⟩) := by
  refine ⟨fun h1 => ?_, fun h1 h2 => ?_, fun h1 h2 h3 h4 h5 => ?_,
    fun h1 h2 h3 h4 => ?_⟩
  · simp [validateEventPolicy, evalPolicies, policies, h1]
  · have hlen : 0 < event.data.patientMRN.length :=
      string_length_pos h1
    rcases h2 with h2 | h2 <;>
      simp [validateEventPolicy, evalPolicies, policies, h1, h2, hlen]
  · have hlen : 0 < event.data.patientMRN.length :=
      string_length_pos h1
    simp [validateEventPolicy, evalPolicies, policies, h1, h2, h3, h4, h5, hlen]
  · have hlen : 0 < event.data.patientMRN.length :=
      string_length_pos h1
    rcases h4 with h4 | h4 <;>
      simp [validateEventPolicy, evalPolicies, policies, h1, h2, h3, h4, hlen]

/-- Witness for C2 at concrete events: an event with an empty MRN, an invalid
message type and a non-whitelisted facility is rejected by
`patient-mrn-required` (the first failing policy, although all three fail);
a fully valid event is allowed with all 3 policies counted. -/
theorem validateEventPolicy_order_witness :
    validateEventPolicy
        ⟨"e1", .update, "p", "BAD_FACILITY", "t",
          ⟨"ORU^R01", "", ⟨"DOE", "JOHN"⟩, "", "", "", ""⟩, ⟨"", "", "hl7-ingest"⟩⟩ =
      ⟨false, "Patient MRN is required", .violatedPolicy "patient-mrn-required"⟩ ∧
    validateEventPolicy
        ⟨"e2", .admission, "MRN1", "FACILITY_001", "t",
          ⟨"ADT^A01", "MRN1", ⟨"DOE", "JOHN"⟩, "", "M", "", ""⟩, ⟨"", "", "hl7-ingest"⟩⟩ =
      ⟨true, "All policies passed", .policiesChecked 3⟩ :=
  ⟨(validateEventPolicy_order
      ⟨"e1", .update, "p", "BAD_FACILITY", "t",
        ⟨"ORU^R01", "", ⟨"DOE", "JOHN"⟩, "", "", "", ""⟩, ⟨"", "", "hl7-ingest"⟩⟩).1
    (by decide),
   (validateEventPolicy_order
      ⟨"e2", .admission, "MRN1", "FACILITY_001", "t",
        ⟨"ADT^A01", "MRN1", ⟨"DOE", "JOHN"⟩, "", "M", "", ""⟩, ⟨"", "", "hl7-ingest"⟩⟩).2.2.2
    (by decide) (by decide) (by decide) (Or.inl (by decide))⟩

/-- A denied `processEvent` bumps `policyViolations`, `errorCount` and
`eventsProcessed` and leaves `successCount` alone. -/
theorem processEvent_denied (e : NormalizedEvent) (m : ProcessingMetrics)
    (h : (validateEventPolicy e).allowed = false) :
    processEvent e m =
      ⟨m.eventsProcessed + 1, m.policyViolations + 1, m.successCount,
        m.errorCount + 1⟩ := by
  simp [processEvent, h]

/-- An allowed `processEvent` bumps `successCount` and `eventsProcessed` and
leaves the violation and error counters alone. -/
theorem processEvent_allowed (e : NormalizedEvent) (m : ProcessingMetrics)
    (h : (validateEventPolicy e).allowed = true) :
    processEvent e m =
      ⟨m.eventsProcessed + 1, m.policyViolations, m.successCount + 1,
        m.errorCount⟩ := by
  simp [processEvent, h]

/-- A denial always carries one of the three violation reasons, never the
all-pass message: rejections are surfaced with a reason string. -/
theorem validateEventPolicy_denied_reason (e : NormalizedEvent)
    (h : (validateEventPolicy e).allowed = false) :
    (validateEventPolicy e).reason = "Patient MRN is required" ∨
    (validateEventPolicy e).reason = "Invalid message type - must be ADT" ∨
    (validateEventPolicy e).reason = "Facility not in whitelist" := by
  simp only [validateEventPolicy, policies, evalPolicies] at h ⊢
  split at h <;> simp_all <;> (split at h <;> simp_all) <;>
    (split at h <;> simp_all)

/-- Batch accounting: every event in the batch is processed (none aborts the
loop), each tallies exactly one of success/violation, and `errorCount` grows
exactly with `policyViolations` (no other error source exists in the model,
where no exception can be raised). -/
theorem runBatch_accounting (events : List NormalizedEvent) :
    ∀ m : ProcessingMetrics,
      (runBatch events m).eventsProcessed =
        m.eventsProcessed + events.length ∧
      (runBatch events m).successCount + (runBatch events m).policyViolations =
        m.successCount + m.policyViolations + events.length ∧
      (runBatch events m).errorCount + m.policyViolations =
        m.errorCount + (runBatch events m).policyViolations := by
  induction events with
  | nil => intro m; simp [runBatch]
  | cons e rest ih =>
    intro m
    have hstep : runBatch (e :: rest) m = runBatch rest (processEvent e m) := rfl
    obtain ⟨ih1, ih2, ih3⟩ := ih (processEvent e m)
    by_cases h : (validateEventPolicy e).allowed = true
    · rw [hstep] at *
      rw [processEvent_allowed e m h] at ih1 ih2 ih3 ⊢
      refine ⟨?_, ?_, ?_⟩ <;> simp at ih1 ih2 ih3 ⊢ <;> omega
    · rw [Bool.not_eq_true] at h
      rw [hstep] at *
      rw [processEvent_denied e m h] at ih1 ih2 ih3 ⊢
      refine ⟨?_, ?_, ?_⟩ <;> simp at ih1 ih2 ih3 ⊢ <;> omega

/-- Counterexample to claim C9 as stated: a policy violation *is* counted as
an error by the orchestrator. Processing an event with an empty MRN from
fresh metrics yields `policyViolations = 1` but also `errorCount = 1`,
so the violation is not kept distinct from the error tally. -/
theorem processEvent_violation_counted_as_error :
    (processEvent
        ⟨"e1", .update, "p", "FACILITY_001", "t",
          ⟨"ADT^A01", "", ⟨"DOE", "JOHN"⟩, "", "", "", ""⟩,
          ⟨"", "", "hl7-ingest"⟩⟩
        ProcessingMetrics.init).policyViolations = 1 ∧
    (processEvent
        ⟨"e1", .update, "p", "FACILITY_001", "t",
          ⟨"ADT^A01", "", ⟨"DOE", "JOHN"⟩, "", "", "", ""⟩,
          ⟨"", "", "hl7-ingest"⟩⟩
        ProcessingMetrics.init).errorCount ≠ 0 := by
  refine ⟨?_, ?_⟩ <;> decide

/-- Claim C9 as amended: a policy violation is routed to the dedicated
`policyViolations` counter with one of the three violation reason strings —
so operators can still tell violations apart — but, contrary to the claim, it
additionally increments `errorCount`; and a failure while processing one item
never aborts batch processing: the batch loop processes every event, tallies
each as exactly one of success or violation, and grows `errorCount` in
lockstep with `policyViolations`. -/
theorem processEvent_violation_routing (e : NormalizedEvent)
    (m : ProcessingMetrics) (events : List NormalizedEvent) :
    ((validateEventPolicy e).allowed = false →
      processEvent e m =
        ⟨m.eventsProcessed + 1, m.policyViolations + 1, m.successCount,
          m.errorCount + 1⟩ ∧
      ((validateEventPolicy e).reason = "Patient MRN is required" ∨
       (validateEventPolicy e).reason = "Invalid message type - must be ADT" ∨
       (validateEventPolicy e).reason = "Facility not in whitelist")) ∧
    ((validateEventPolicy e).allowed = true →
      processEvent e m =
        ⟨m.eventsProcessed + 1, m.policyViolations, m.successCount + 1,
          m.errorCount⟩) ∧
    (runBatch events m).eventsProcessed = m.eventsProcessed + events.length ∧
    (runBatch events m).successCount + (runBatch events m).policyViolations =
      m.successCount + m.policyViolations + events.length ∧
    (runBatch events m).errorCount + m.policyViolations =
      m.errorCount + (runBatch events m).policyViolations :=
  ⟨fun h => ⟨processEvent_denied e m h, validateEventPolicy_denied_reason e h⟩,
   fun h => processEvent_allowed e m h,
   (runBatch_accounting events m).1,
   (runBatch_accounting events m).2.1,
   (runBatch_accounting events m).2.2⟩

/-- Witness for C9 (amended): a batch of one rejected event (empty MRN) and
one accepted event is fully processed, with the violation routed to the
violation counter (and, per the code, also to the error counter). -/
theorem processEvent_violation_routing_witness :
    (validateEventPolicy
        ⟨"e1", .update, "p", "FACILITY_001", "t",
          ⟨"ADT^A01", "", ⟨"DOE", "JOHN"⟩, "", "", "", ""⟩,
          ⟨"", "", "hl7-ingest"⟩⟩).allowed = false ∧
    processEvent
        ⟨"e1", .update, "p", "FACILITY_001", "t",
          ⟨"ADT^A01", "", ⟨"DOE", "JOHN"⟩, "", "", "", ""⟩,
          ⟨"", "", "hl7-ingest"⟩⟩
        ProcessingMetrics.init = ⟨1, 1, 0, 1⟩ ∧
    (runBatch
        [⟨"e1", .update, "p", "FACILITY_001", "t",
          ⟨"ADT^A01", "", ⟨"DOE", "JOHN"⟩, "", "", "", ""⟩,
          ⟨"", "", "hl7-ingest"⟩⟩,
         ⟨"e2", .admission, "MRN1", "FACILITY_001", "t",
          ⟨"ADT^A01", "MRN1", ⟨"DOE", "JOHN"⟩, "", "M", "", ""⟩,
          ⟨"", "", "hl7-ingest"⟩⟩]
        ProcessingMetrics.init).eventsProcessed = 2 :=
  ⟨by decide,
   (processEvent_violation_routing
      ⟨"e1", .update, "p", "FACILITY_001", "t",
        ⟨"ADT^A01", "", ⟨"DOE", "JOHN"⟩, "", "", "", ""⟩,
        ⟨"", "", "hl7-ingest"⟩⟩
      ProcessingMetrics.init []).1 (by decide) |>.1,
   (processEvent_violation_routing
      ⟨"e0", .update, "p", "F", "t",
        ⟨"", "", ⟨"", ""⟩, "", "", "", ""⟩, ⟨"", "", "hl7-ingest"⟩⟩
      ProcessingMetrics.init
      [⟨"e1", .update, "p", "FACILITY_001", "t",
          ⟨"ADT^A01", "", ⟨"DOE", "JOHN"⟩, "", "", "", ""⟩,
          ⟨"", "", "hl7-ingest"⟩⟩,
       ⟨"e2", .admission, "MRN1", "FACILITY_001", "t",
          ⟨"ADT^A01", "MRN1", ⟨"DOE", "JOHN"⟩, "", "M", "", ""⟩,
          ⟨"", "", "hl7-ingest"⟩⟩]).2.2.1⟩

/-- Reading a cons cell: the head entry answers for its own key, otherwise the
lookup continues. -/
theorem getCount_cons (p : String × Nat) (c : Counters) (j : String) :
    getCount (p :: c) j = if p.1 = j then p.2 else getCount c j := by
  by_cases h : p.1 = j <;> simp [getCount, List.find?_cons, h]

/-- If some entry has the key, the in-place update bumps the key's count. -/
theorem getCount_map_bump (k : String) :
    ∀ c : Counters, c.any (fun p => p.1 = k) = true →
      getCount (c.map (fun p => if p.1 = k then (p.1, p.2 + 1) else p)) k =
        getCount c k + 1 := by
  intro c
  induction c with
  | nil => intro h; simp at h
  | cons p c ih =>
    intro h
    by_cases hp : p.1 = k
    · simp [getCount_cons, hp]
    · simp only [List.any_cons, decide_eq_true_eq, hp, decide_False,
        Bool.false_or] at h
      simp [getCount_cons, hp, ih h]

/-- The in-place update leaves every other key's count unchanged. -/
theorem getCount_map_ne (k j : String) (hj : j ≠ k) :
    ∀ c : Counters,
      getCount (c.map (fun p => if p.1 = k then (p.1, p.2 + 1) else p)) j =
        getCount c j := by
  intro c
  induction c with
  | nil => rfl
  | cons p c ih =>
    have hkj : ¬k = j := fun h => hj h.symm
    by_cases hp : p.1 = k
    · simp [getCount_cons, hp, hkj, ih]
    · by_cases hpj : p.1 = j <;> simp [getCount_cons, hp, hpj, ih, hj]

/-- A key no entry carries reads as zero. -/
theorem getCount_eq_zero_of_absent (k : String) :
    ∀ c : Counters, c.any (fun p => p.1 = k) = false → getCount c k = 0 := by
  intro c
  induction c with
  | nil => intro _; rfl
  | cons p c ih =>
    intro h
    simp only [List.any_cons, Bool.or_eq_false_iff, decide_eq_false_iff_not] at h
    simp [getCount_cons, h.1, ih (by simpa using h.2)]

/-- Appending entries after a list without the key defers the lookup. -/
theorem getCount_append_of_absent (k : String) (d : Counters) :
    ∀ c : Counters, c.any (fun p => p.1 = k) = false →
      getCount (c ++ d) k = getCount d k := by
  intro c
  induction c with
  | nil => intro _; rfl
  | cons p c ih =>
    intro h
    simp only [List.any_cons, Bool.or_eq_false_iff, decide_eq_false_iff_not] at h
    simp [List.cons_append, getCount_cons, h.1, ih (by simpa using h.2)]

/-- Appending a fresh `(k, 1)` entry cannot change any other key's count. -/
theorem getCount_append_single_ne (k j : String) (hj : j ≠ k) :
    ∀ c : Counters, getCount (c ++ [(k, 1)]) j = getCount c j := by
  intro c
  induction c with
  | nil =>
    have hkj : ¬k = j := fun h => hj h.symm
    simp [getCount_cons, hkj, getCount]
  | cons p c ih =>
    by_cases hp : p.1 = j <;> simp [List.cons_append, getCount_cons, hp, ih]

/-- `inc(key)` bumps exactly that key's count by one and leaves every other
key's count unchanged. -/
theorem getCount_inc (k j : String) (c : Counters) :
    getCount (inc k c) j =
      if j = k then getCount c j + 1 else getCount c j := by
  unfold inc
  by_cases hany : c.any (fun p => p.1 = k) = true
  · rw [if_pos hany]
    by_cases hj : j = k
    · subst hj; simp [getCount_map_bump j c hany]
    · simp [hj, getCount_map_ne k j hj c]
  · rw [if_neg hany]
    rw [Bool.not_eq_true] at hany
    by_cases hj : j = k
    · subst hj
      rw [getCount_append_of_absent j [(j, 1)] c hany,
        getCount_eq_zero_of_absent j c hany]
      simp [getCount_cons]
    · simp [hj, getCount_append_single_ne k j hj c]

/-- One `inc` never decreases any key's count. -/
theorem getCount_le_inc (k j : String) (c : Counters) :
    getCount c j ≤ getCount (inc k c) j := by
  rw [getCount_inc]
  split <;> omega

/-- Claim C7: for every key, the value reported by `snapshot()` for that key
is non-decreasing across any sequence of `increment` operations — from any
reachable counters state, running any further increments can only grow the
snapshot's value for the key — and `snapshot` returns a copy of the current
counts (the same entries as the live object; in this pure embedding the copy
is the value itself, so a snapshot taken earlier is by construction unchanged
by increments performed after it). -/
theorem snapshot_nondecreasing (keys : List String) (c : Counters)
    (k : String) :
    getCount (snapshot c) k ≤ getCount (snapshot (runIncs keys c)) k ∧
    snapshot c = c := by
  refine ⟨?_, rfl⟩
  induction keys generalizing c with
  | nil => exact le_refl _
  | cons key rest ih =>
    exact le_trans (getCount_le_inc key k c) (ih (inc key c))

/-- Counting a predicate's holders and its non-holders covers a list. -/
theorem countP_add_countP_not {α : Type} (p : α → Bool) :
    ∀ l : List α, l.countP p + l.countP (fun a => !(p a)) = l.length := by
  intro l
  induction l with
  | nil => rfl
  | cons a l ih =>
    by_cases h : p a = true <;> simp [List.countP_cons, h] <;> omega

/-- The eval loop is a running tally: starting from `(p, f)`, it adds the
number of tasks whose rule result equals the expectation to `p` and the
number of the others to `f`. -/
theorem foldl_evalStep (payload : String) :
    ∀ (tasks : List EvalTask) (p f : Nat),
      tasks.foldl (evalStep payload) (p, f) =
        (p + tasks.countP (fun t => evaluateRule t.rule payload == t.expect),
         f + tasks.countP (fun t => !(evaluateRule t.rule payload == t.expect))) := by
  intro tasks
  induction tasks with
  | nil => intro p f; simp
  | cons t rest ih =>
    intro p f
    by_cases h : evaluateRule t.rule payload = t.expect <;>
      simp only [List.foldl_cons, evalStep, h, if_true, if_false,
        List.countP_cons, ih] <;>
      simp [h] <;> omega

/-- Claim C8: for every ordered task list and fixed payload, the harness
counts a task as pass iff its rule's result on the payload equals its
expectation and as fail otherwise (so pass + fail = number of tasks), and
raises the rollback flag exactly when at least one task fails. Concretely,
the claim's instance: a task list whose rules come out `[true, false]` on the
payload against expectations `[true, true]` reports `PASS=1 FAIL=1
rollback=true`, and with expectations matching both outcomes it reports
`PASS=2 FAIL=0 rollback=false`. -/
theorem runEval_spec (tasks : List EvalTask) (payload : String) :
    runEval tasks payload =
      (tasks.countP (fun t => evaluateRule t.rule payload == t.expect),
       tasks.countP (fun t => !(evaluateRule t.rule payload == t.expect)),
       tasks.any (fun t => !(evaluateRule t.rule payload == t.expect))) ∧
    (runEval tasks payload).1 + (runEval tasks payload).2.1 = tasks.length ∧
    runEval
        [⟨"Medication reconciliation", "contains:HL7", true⟩,
         ⟨"Discharge summary extraction", "contains:DISCHARGE", true⟩]
        "MSH|HL7SAMPLE" = (1, 1, true) ∧
    runEval
        [⟨"Medication reconciliation", "contains:HL7", true⟩,
         ⟨"Discharge summary extraction", "contains:DISCHARGE", false⟩]
        "MSH|HL7SAMPLE" = (2, 0, false) := by
  have hfold := foldl_evalStep payload tasks 0 0
  refine ⟨?_, ?_, by decide, by decide⟩
  · unfold runEval
    rw [hfold]
    simp only [Nat.zero_add]
    refine Prod.ext rfl (Prod.ext rfl ?_)
    rw [Bool.eq_iff_iff]
    simp [List.countP_pos_iff, List.any_eq_true, Bool.not_eq_true']
  · unfold runEval
    rw [hfold]
    simp only [Nat.zero_add]
    exact countP_add_countP_not _ tasks

/-- Claim C10: a rule string that does not match the
`/^contains:(.+)$/i` pattern makes `evaluateRule` return `false` — it cannot
throw, being a total function of the rule and payload — for every payload;
consequently the eval loop counts a task carrying such a malformed rule as a
pass exactly when the task's expectation is `false`, and as a fail exactly
when it is `true`. -/
theorem evaluateRule_malformed (rule payload : String) (t : EvalTask)
    (p f : Nat) (hm : matchContainsRule rule = none) (ht : t.rule = rule) :
    evaluateRule rule payload = false ∧
    evalStep payload (p, f) t =
      (if t.expect = false then (p + 1, f) else (p, f + 1)) := by
  have h1 : evaluateRule rule payload = false := by
    simp [evaluateRule, hm]
  refine ⟨h1, ?_⟩
  rw [evalStep, ht, h1]
  cases hx : t.expect <;> simp [hx]

/-- Witness for C10 at a concrete malformed rule, `"regex:foo"` (wrong
prefix): the rule evaluates to `false`, so a task expecting `false` passes
and a task expecting `true` fails. -/
theorem evaluateRule_malformed_witness :
    matchContainsRule "regex:foo" = none ∧
    evaluateRule "regex:foo" "MSH|HL7SAMPLE" = false ∧
    evalStep "MSH|HL7SAMPLE" (0, 0) ⟨"n1", "regex:foo", false⟩ = (1, 0) ∧
    evalStep "MSH|HL7SAMPLE" (0, 0) ⟨"n2", "regex:foo", true⟩ = (0, 1) :=
  ⟨by decide,
   (evaluateRule_malformed "regex:foo" "MSH|HL7SAMPLE"
      ⟨"n1", "regex:foo", false⟩ 0 0 (by decide) rfl).1,
   (evaluateRule_malformed "regex:foo" "MSH|HL7SAMPLE"
      ⟨"n1", "regex:foo", false⟩ 0 0 (by decide) rfl).2,
   (evaluateRule_malformed "regex:foo" "MSH|HL7SAMPLE"
      ⟨"n2", "regex:foo", true⟩ 0 0 (by decide) rfl).2⟩
